import Mathlib

/-!
Shallow embedding of the environment service layer of the keyshade repository
(`apps/api/src/environment/service/environment.service.ts`), together with the
parts of the Prisma schema it touches (`Environment`, `Event`) and the
spec-modelled collaborators (`getProjectWithAuthority`,
`getEnvironmentWithAuthority`, `createEvent`) whose sources are outside the
provided files.

The relational store is modelled as an explicit `DB` value threaded through
each operation.  A thrown Nest exception is modelled as returning
`Except.error` together with the store state as it is at the moment of the
throw; the Prisma `$transaction(ops)` call is modelled by applying the batched
write operations to the store in order, atomically (a failing op rolls the
whole batch back).  JavaScript truthiness of the optional string `dto.name`
(`if (dto.name && ...)`) is modelled explicitly: `none` and `some ""` are both
falsy.
-/

namespace Keyshade

/-- Subset of the `Authority` Prisma enum used by the environment service. -/
inductive Authority where
  | CREATE_ENVIRONMENT
  | READ_ENVIRONMENT
  | UPDATE_ENVIRONMENT
  | DELETE_ENVIRONMENT
  deriving DecidableEq

/-- Subset of the `EventType` Prisma enum used by the environment service. -/
inductive EventType where
  | ENVIRONMENT_ADDED
  | ENVIRONMENT_UPDATED
  | ENVIRONMENT_DELETED
  deriving DecidableEq

/-- Error taxonomy of the service layer: `NotFound` and `Forbidden` from the
authority resolvers, `Conflict` for `ConflictException`, `InvalidOperation`
for `BadRequestException`, `Internal` for persistence-layer failures. -/
inductive Err where
  | NotFound
  | Forbidden
  | Conflict
  | InvalidOperation
  | Internal
  deriving DecidableEq

/-- The `Environment` Prisma model (the fields the service reads or writes;
ids are modelled as naturals). -/
structure Environment where
  id : Nat
  name : String
  description : Option String
  isDefault : Bool
  projectId : Nat
  lastUpdatedById : Option Nat
  deriving DecidableEq

/-- The `User` model, reduced to what the service uses. -/
structure UserRec where
  id : Nat
  deriving DecidableEq

/-- An `Event` row, reduced to its `type` and the metadata fields the service
writes (`environmentId`, `name`, `projectId`). -/
structure EventRec where
  typ : EventType
  environmentId : Nat
  name : String
  projectId : Nat
  deriving DecidableEq

/-- The `CreateEnvironment` DTO.  An absent `isDefault` behaves exactly like
`false` in the service (`if (dto.isDefault)` is falsy and the Prisma column
default is `false`), so it is modelled as `Bool`. -/
structure CreateEnvironment where
  name : String
  description : Option String
  isDefault : Bool
  deriving DecidableEq

/-- The `UpdateEnvironment` DTO: all three fields optional, `none` meaning the
field is absent from the payload. -/
structure UpdateEnvironment where
  name : Option String
  description : Option String
  isDefault : Option Bool
  deriving DecidableEq

/-- The relational store as seen by the environment service. -/
structure DB where
  projects : List Nat
  envs : List Environment
  users : List UserRec
  events : List EventRec
  nextId : Nat

/-- JavaScript truthiness of the optional string `dto.name`: absent and the
empty string are falsy. -/
def optStrTruthy : Option String → Bool
  | none => false
  | some s => s ≠ ""

/-- JavaScript truthiness of the optional boolean `dto.isDefault`. -/
def optBoolTruthy : Option Bool → Bool
  | some true => true
  | _ => false

/-- Permission relation supplied by the (out-of-scope) role model: does the
user hold the authority on the project? -/
def Perm : Type := Nat → Nat → Authority → Bool

/-- Modelled from the spec: `getProjectWithAuthority` (its source is outside
the provided files).  Per spec §4.1 it fails `NotFound` when the project does
not exist and `Forbidden` when the required authority is absent from the
caller's effective set; it is read-only. -/
def getProjectWithAuthority (perm : Perm) (userId projectId : Nat)
    (a : Authority) (db : DB) : Except Err Nat :=
  if projectId ∈ db.projects then
    if perm userId projectId a then Except.ok projectId
    else Except.error Err.Forbidden
  else Except.error Err.NotFound

/-- `prisma.environment.findFirst({ where: { id } })`-style lookup used by the
environment authority resolver. -/
def findEnv (db : DB) (environmentId : Nat) : Option Environment :=
  db.envs.find? (fun e => e.id == environmentId)

/-- Modelled from the spec: `getEnvironmentWithAuthority` (its source is
outside the provided files).  Per spec §4.1: `NotFound` when the environment
does not resolve, `Forbidden` when the authority is missing on its project's
workspace chain; read-only. -/
def getEnvironmentWithAuthority (perm : Perm) (userId environmentId : Nat)
    (a : Authority) (db : DB) : Except Err Environment :=
  match findEnv db environmentId with
  | none => Except.error Err.NotFound
  | some e =>
      if perm userId e.projectId a then Except.ok e
      else Except.error Err.Forbidden

/-- `environmentExists`: `findFirst({ where: { name, projectId } })`, used in
boolean position (the returned row is truthy iff one exists). -/
def environmentExists (db : DB) (name : String) (projectId : Nat) : Bool :=
  db.envs.any (fun e => e.name == name && e.projectId == projectId)

/-- `makeAllNonDefault`: `updateMany({ where: { projectId }, data:
{ isDefault: false } })`. -/
def makeAllNonDefault (projectId : Nat) (db : DB) : DB :=
  { db with
    envs := db.envs.map (fun e =>
      if e.projectId == projectId then { e with isDefault := false } else e) }

/-- Modelled from the spec: `createEvent` (its source is outside the provided
files).  Per spec §4.5 it appends one immutable `Event` row carrying the type
and the metadata written at each call site. -/
def createEvent (typ : EventType) (environmentId : Nat) (name : String)
    (projectId : Nat) (db : DB) : DB :=
  { db with events := db.events ++ [⟨typ, environmentId, name, projectId⟩] }

/-- `createEnvironment`: authority gate, name-conflict check, then a
transaction of `[makeAllNonDefault?; create]`, then the event. -/
def createEnvironment (perm : Perm) (user : UserRec) (dto : CreateEnvironment)
    (projectId : Nat) (db : DB) : Except Err Environment × DB :=
  match getProjectWithAuthority perm user.id projectId
      Authority.CREATE_ENVIRONMENT db with
  | Except.error e => (Except.error e, db)
  | Except.ok _ =>
      if environmentExists db dto.name projectId then
        (Except.error Err.Conflict, db)
      else
        let environment : Environment :=
          { id := db.nextId
            name := dto.name
            description := dto.description
            isDefault := dto.isDefault
            projectId := projectId
            lastUpdatedById := some user.id }
        let db1 := if dto.isDefault then makeAllNonDefault projectId db else db
        let db2 := { db1 with
          envs := db1.envs ++ [environment], nextId := db1.nextId + 1 }
        (Except.ok environment,
          createEvent EventType.ENVIRONMENT_ADDED environment.id
            environment.name projectId db2)

/-- The field assignment of the Prisma `update` call inside
`updateEnvironment`: absent `name`/`description` leave the column unchanged;
`isDefault` falls back to the pre-read `environment.isDefault` when the DTO
field is `undefined`/`null`. -/
def applyUpdateFields (dto : UpdateEnvironment) (environment : Environment)
    (userId : Nat) (e : Environment) : Environment :=
  { e with
    name := dto.name.getD e.name
    description :=
      match dto.description with
      | some d => some d
      | none => e.description
    isDefault := dto.isDefault.getD environment.isDefault
    lastUpdatedById := some userId }

/-- `updateEnvironment` with the read phase and the write phase given separate
store states: every query issued before `$transaction(ops)` (the authority
resolution, the name-conflict `findFirst` and the environment `count`) reads
`dbCheck`, while the transaction itself executes against `dbWrite`.  The
sequential service call is the diagonal `dbCheck = dbWrite`; a concurrent
committed writer between the checks and the transaction is exactly a
non-diagonal instance. -/
def updateEnvironmentAt (perm : Perm) (user : UserRec)
    (dto : UpdateEnvironment) (environmentId : Nat)
    (dbCheck dbWrite : DB) : Except Err Environment × DB :=
  match getEnvironmentWithAuthority perm user.id environmentId
      Authority.UPDATE_ENVIRONMENT dbCheck with
  | Except.error e => (Except.error e, dbWrite)
  | Except.ok environment =>
      if optStrTruthy dto.name &&
          (environment.name == dto.name.getD "" ||
            environmentExists dbCheck (dto.name.getD "")
              environment.projectId) then
        (Except.error Err.Conflict, dbWrite)
      else
        let count :=
          (dbCheck.envs.filter
            (fun e => e.projectId == environment.projectId)).length
        if dto.isDefault == some false && environment.isDefault &&
            count == 1 then
          (Except.error Err.InvalidOperation, dbWrite)
        else
          let db1 :=
            if optBoolTruthy dto.isDefault then
              makeAllNonDefault environment.projectId dbWrite
            else dbWrite
          match findEnv db1 environmentId with
          | none => (Except.error Err.Internal, dbWrite)
          | some row =>
              let updated := applyUpdateFields dto environment user.id row
              let db2 := { db1 with
                envs := db1.envs.map (fun e =>
                  if e.id == environmentId then
                    applyUpdateFields dto environment user.id e
                  else e) }
              (Except.ok updated,
                createEvent EventType.ENVIRONMENT_UPDATED updated.id
                  updated.name updated.projectId db2)

/-- `updateEnvironment` as the service executes it when no concurrent writer
intervenes: checks and transaction see the same store. -/
def updateEnvironment (perm : Perm) (user : UserRec) (dto : UpdateEnvironment)
    (environmentId : Nat) (db : DB) : Except Err Environment × DB :=
  updateEnvironmentAt perm user dto environmentId db db

/-- Does `needle` occur at the head of `hay`? -/
def leadsWith : List Char → List Char → Bool
  | [], _ => true
  | _ :: _, [] => false
  | a :: as, b :: bs => a == b && leadsWith as bs

/-- Does `needle` occur anywhere inside `hay`? -/
def hasSub (needle : List Char) : List Char → Bool
  | [] => leadsWith needle []
  | c :: t => leadsWith needle (c :: t) || hasSub needle t

/-- The Prisma `name: { contains: search }` filter: case-sensitive substring
match. -/
def strContains (hay needle : String) : Bool :=
  hasSub needle.data hay.data

/-- The sortable `Environment` columns modelled here, standing for the dynamic
`orderBy: { [sort]: order }` field name. -/
inductive SortField where
  | name
  | id
  | isDefault
  deriving DecidableEq

/-- Sort direction of `orderBy`. -/
inductive SortOrder where
  | asc
  | desc
  deriving DecidableEq

/-- Lexicographic codepoint order on character lists (the collation used for
`orderBy` on a text column). -/
def charListLe : List Char → List Char → Bool
  | [], _ => true
  | _ :: _, [] => false
  | a :: as, b :: bs =>
      if a.toNat < b.toNat then true
      else if b.toNat < a.toNat then false
      else charListLe as bs

/-- Lexicographic order on strings. -/
def strLe (s t : String) : Bool := charListLe s.data t.data

/-- Ascending comparison on the named column. -/
def fieldLe : SortField → Environment → Environment → Bool
  | SortField.name, a, b => strLe a.name b.name
  | SortField.id, a, b => decide (a.id ≤ b.id)
  | SortField.isDefault, a, b => !a.isDefault || b.isDefault

/-- The `orderBy` comparison: the named column in the named direction. -/
def envLe (f : SortField) (o : SortOrder) (a b : Environment) : Bool :=
  match o with
  | SortOrder.asc => fieldLe f a b
  | SortOrder.desc => fieldLe f b a

/-- Ordered insertion for the sort below. -/
def insertLe {α : Type} (le : α → α → Bool) (a : α) : List α → List α
  | [] => [a]
  | b :: t => if le a b then a :: b :: t else b :: insertLe le a t

/-- Insertion sort, modelling the `ORDER BY` applied by the store before
`skip`/`take`. -/
def sortLe {α : Type} (le : α → α → Bool) : List α → List α
  | [] => []
  | a :: t => insertLe le a (sortLe le t)

/-- Resolution of the `lastUpdatedBy` relation performed by
`include: { lastUpdatedBy: true }`. -/
def lookupUser (db : DB) : Option Nat → Option UserRec
  | none => none
  | some uid => db.users.find? (fun u => u.id == uid)

/-- `getEnvironmentsOfProject`: authority gate, then
`findMany({ where: { projectId, name: { contains: search } }, include:
{ lastUpdatedBy: true }, skip: page * limit, take: limit, orderBy:
{ [sort]: order } })`.  SQL applies the order before `skip`/`take`. -/
def getEnvironmentsOfProject (perm : Perm) (user : UserRec)
    (projectId page limit : Nat) (sort : SortField) (order : SortOrder)
    (search : String) (db : DB) :
    Except Err (List (Environment × Option UserRec)) :=
  match getProjectWithAuthority perm user.id projectId
      Authority.READ_ENVIRONMENT db with
  | Except.error e => Except.error e
  | Except.ok _ =>
      Except.ok
        ((((sortLe (envLe sort order) (db.envs.filter (fun e =>
            e.projectId == projectId &&
              strContains e.name search))).drop
            (page * limit)).take limit).map
          (fun e => (e, lookupUser db e.lastUpdatedById)))

/-- `getEnvironment`: authority gate, then return the entity (read-only). -/
def getEnvironment (perm : Perm) (user : UserRec) (environmentId : Nat)
    (db : DB) : Except Err Environment :=
  getEnvironmentWithAuthority perm user.id environmentId
    Authority.READ_ENVIRONMENT db

/-- `deleteEnvironment`: authority gate, default-environment guard, delete,
event. -/
def deleteEnvironment (perm : Perm) (user : UserRec) (environmentId : Nat)
    (db : DB) : Except Err Unit × DB :=
  match getEnvironmentWithAuthority perm user.id environmentId
      Authority.DELETE_ENVIRONMENT db with
  | Except.error e => (Except.error e, db)
  | Except.ok environment =>
      if environment.isDefault then
        (Except.error Err.InvalidOperation, db)
      else
        let db1 := { db with
          envs := db.envs.filter (fun e => !(e.id == environmentId)) }
        (Except.ok (),
          createEvent EventType.ENVIRONMENT_DELETED environment.id
            environment.name environment.projectId db1)

/-! ### Default-count machinery for the default-environment invariant -/

/-- Contribution of a single row to the default count of project `p`. -/
def contrib (p : Nat) (e : Environment) : Nat :=
  if e.projectId == p && e.isDefault then 1 else 0

/-- Number of environments of project `p` flagged default in a row list. -/
def dcount (l : List Environment) (p : Nat) : Nat :=
  (l.filter (fun e => e.projectId == p && e.isDefault)).length

theorem dcount_nil (p : Nat) : dcount [] p = 0 := rfl

theorem dcount_cons (e : Environment) (t : List Environment) (p : Nat) :
    dcount (e :: t) p = contrib p e + dcount t p := by
  simp only [dcount, contrib, List.filter_cons]
  split <;> simp [Nat.add_comm]

theorem dcount_append (l₁ l₂ : List Environment) (p : Nat) :
    dcount (l₁ ++ l₂) p = dcount l₁ p + dcount l₂ p := by
  simp [dcount, List.filter_append]

theorem dcount_filter_le (f : Environment → Bool) (l : List Environment)
    (p : Nat) : dcount (l.filter f) p ≤ dcount l p := by
  induction l with
  | nil => simp [dcount]
  | cons e t ih =>
      rw [dcount_cons, List.filter_cons]
      split
      · rw [dcount_cons]
        omega
      · omega

theorem dcount_makeAllNonDefault (l : List Environment) (q p : Nat) :
    dcount (l.map (fun e =>
        if e.projectId == q then { e with isDefault := false } else e)) p =
      if p = q then 0 else dcount l p := by
  induction l with
  | nil => simp [dcount]
  | cons e t ih =>
      rw [List.map_cons, dcount_cons, dcount_cons, ih]
      by_cases hpq : p = q
      · subst hpq
        by_cases h : e.projectId = p
        · simp [contrib, h]
        · simp [contrib, h]
      · by_cases h : e.projectId = q
        · have hq : (e.projectId == q) = true := by simp [h]
          have h2 : (e.projectId == p) = false := by
            simp only [beq_eq_false_iff_ne, ne_eq]
            exact fun hc => hpq (hc.symm.trans h)
          simp [contrib, hq, h2, if_neg hpq]
        · have h3 : (e.projectId == q) = false := by simp [h]
          simp [contrib, h3, if_neg hpq]

/-- `find?` commutes with a map that does not change the tested predicate. -/
theorem find?_map_eq {α : Type} (f : α → α) (p : α → Bool)
    (hp : ∀ x, p (f x) = p x) (l : List α) :
    (l.map f).find? p = (l.find? p).map f := by
  induction l with
  | nil => rfl
  | cons a t ih =>
      by_cases h : p a
      · rw [List.map_cons, List.find?_cons_of_pos _ ((hp a).trans (by simp [h])),
          List.find?_cons_of_pos _ h, Option.map_some']
      · rw [List.map_cons, List.find?_cons_of_neg _ (by simp [hp a, h]),
          List.find?_cons_of_neg _ h, ih]

/-- Mapping an id-targeted rewrite over a list with distinct ids rewrites the
found row and nothing else: the default counts change exactly by swapping the
found row's contribution for its image's. -/
theorem dcount_update_by_id {l : List Environment} {eid : Nat}
    {e0 : Environment} (hnd : (l.map Environment.id).Nodup)
    (hfind : l.find? (fun e => e.id == eid) = some e0)
    (g : Environment → Environment) (p : Nat) :
    dcount (l.map (fun e => if e.id == eid then g e else e)) p + contrib p e0 =
      dcount l p + contrib p (g e0) := by
  induction l with
  | nil => simp at hfind
  | cons e t ih =>
      rw [List.map_cons, List.nodup_cons] at hnd
      by_cases h : (e.id == eid) = true
      · have hhead : List.find? (fun x => x.id == eid) (e :: t) = some e :=
          List.find?_cons_of_pos t h
        rw [hhead] at hfind
        injection hfind with he
        subst he
        have heid : e.id = eid := by simpa using h
        have htail : ∀ x ∈ t, (if (x.id == eid) = true then g x else x) = x := by
          intro x hx
          have hxid : x.id ≠ e.id := fun hcon =>
            hnd.1 (hcon ▸ List.mem_map_of_mem Environment.id hx)
          have hx2 : (x.id == eid) = false := by
            simp only [beq_eq_false_iff_ne, ne_eq]
            exact fun hc => hxid (hc.trans heid.symm)
          simp [hx2]
        rw [List.map_cons, if_pos h, List.map_congr_left htail, List.map_id',
          dcount_cons, dcount_cons]
        omega
      · have hhead : List.find? (fun x => x.id == eid) (e :: t) =
            List.find? (fun x => x.id == eid) t :=
          List.find?_cons_of_neg t h
        rw [hhead] at hfind
        have ihe := ih hnd.2 hfind
        rw [List.map_cons, if_neg h, dcount_cons, dcount_cons]
        omega

/-! ### The service invariant -/

/-- Row ids are distinct and below the id allocator. -/
def idsOk (db : DB) : Prop :=
  (db.envs.map Environment.id).Nodup ∧ ∀ e ∈ db.envs, e.id < db.nextId

/-- At most one default environment per project. -/
def AtMostOne (db : DB) : Prop := ∀ p, dcount db.envs p ≤ 1

/-- The store invariant maintained by the environment service. -/
def Inv (db : DB) : Prop := idsOk db ∧ AtMostOne db

theorem getEnvironmentWithAuthority_ok {perm : Perm} {userId eid : Nat}
    {a : Authority} {db : DB} {e : Environment}
    (h : getEnvironmentWithAuthority perm userId eid a db = Except.ok e) :
    findEnv db eid = some e ∧ perm userId e.projectId a = true := by
  unfold getEnvironmentWithAuthority at h
  split at h
  · simp at h
  · rename_i e' hf
    split at h
    · rename_i hp
      injection h with he
      subst he
      exact ⟨hf, by simpa using hp⟩
    · simp at h

@[simp] theorem createEvent_envs (t : EventType) (i : Nat) (n : String)
    (p : Nat) (db : DB) : (createEvent t i n p db).envs = db.envs := rfl

@[simp] theorem createEvent_nextId (t : EventType) (i : Nat) (n : String)
    (p : Nat) (db : DB) : (createEvent t i n p db).nextId = db.nextId := rfl

@[simp] theorem createEvent_events (t : EventType) (i : Nat) (n : String)
    (p : Nat) (db : DB) :
    (createEvent t i n p db).events = db.events ++ [⟨t, i, n, p⟩] := rfl

@[simp] theorem makeAllNonDefault_nextId (q : Nat) (db : DB) :
    (makeAllNonDefault q db).nextId = db.nextId := rfl

@[simp] theorem makeAllNonDefault_events (q : Nat) (db : DB) :
    (makeAllNonDefault q db).events = db.events := rfl

theorem map_preserves_ids {f : Environment → Environment}
    (hf : ∀ e, (f e).id = e.id) (l : List Environment) :
    (l.map f).map Environment.id = l.map Environment.id := by
  rw [List.map_map]
  exact List.map_congr_left (fun a _ => hf a)

theorem idsOk_map {db : DB} {f : Environment → Environment}
    (hf : ∀ e, (f e).id = e.id) (h : idsOk db) :
    idsOk { db with envs := db.envs.map f } := by
  constructor
  · show ((db.envs.map f).map Environment.id).Nodup
    rw [map_preserves_ids hf]
    exact h.1
  · intro e he
    rcases List.mem_map.mp he with ⟨x, hx, rfl⟩
    show (f x).id < db.nextId
    rw [hf]
    exact h.2 x hx

theorem idsOk_makeAllNonDefault {db : DB} (q : Nat) (h : idsOk db) :
    idsOk (makeAllNonDefault q db) := by
  apply idsOk_map _ h
  intro e
  by_cases hq : e.projectId = q <;> simp [hq]

theorem idsOk_append_fresh {db : DB} (h : idsOk db) {e : Environment}
    (he : e.id = db.nextId) :
    idsOk { db with envs := db.envs ++ [e], nextId := db.nextId + 1 } := by
  constructor
  · show ((db.envs ++ [e]).map Environment.id).Nodup
    rw [List.map_append]
    refine h.1.append (List.nodup_singleton _) ?_
    intro x hx
    simp only [List.map_cons, List.map_nil, List.mem_singleton]
    intro hxe
    rcases List.mem_map.mp hx with ⟨y, hy, rfl⟩
    have := h.2 y hy
    omega
  · intro x hx
    show x.id < db.nextId + 1
    rcases List.mem_append.mp hx with hx | hx
    · have := h.2 x hx
      omega
    · rcases List.mem_singleton.mp hx with rfl
      omega

theorem Inv_createEnvironment (perm : Perm) (u : UserRec)
    (dto : CreateEnvironment) (pid : Nat) (db : DB) (h : Inv db) :
    Inv (createEnvironment perm u dto pid db).2 := by
  unfold createEnvironment
  cases hA : getProjectWithAuthority perm u.id pid
      Authority.CREATE_ENVIRONMENT db with
  | error e => simpa only [hA] using h
  | ok pr =>
      simp only [hA]
      by_cases hEx : environmentExists db dto.name pid
      · simpa [hEx] using h
      · rw [if_neg hEx]
        cases hD : dto.isDefault with
        | false =>
            simp only [hD, Bool.false_eq_true, if_false]
            constructor
            · exact idsOk_append_fresh h.1 rfl
            · intro p
              show dcount (db.envs ++ [_]) p ≤ 1
              rw [dcount_append, dcount_cons, dcount_nil, contrib]
              simp only [Bool.and_false, Bool.false_eq_true, if_false]
              have := h.2 p
              omega
        | true =>
            simp only [hD, if_true]
            constructor
            · exact idsOk_append_fresh (idsOk_makeAllNonDefault pid h.1) rfl
            · intro p
              show dcount ((makeAllNonDefault pid db).envs ++ [_]) p ≤ 1
              have hm : dcount (makeAllNonDefault pid db).envs p =
                  if p = pid then 0 else dcount db.envs p :=
                dcount_makeAllNonDefault db.envs pid p
              rw [dcount_append, dcount_cons, dcount_nil, hm]
              by_cases hp : p = pid
              · subst hp
                simp [contrib]
              · have hc : contrib p (⟨db.nextId, dto.name, dto.description,
                    true, pid, some u.id⟩ : Environment) = 0 := by
                  have hb : (pid == p) = false := by
                    simp only [beq_eq_false_iff_ne, ne_eq]
                    exact fun hcc => hp hcc.symm
                  simp [contrib, hb]
                rw [hc, if_neg hp]
                have := h.2 p
                omega

theorem Inv_deleteEnvironment (perm : Perm) (u : UserRec) (eid : Nat)
    (db : DB) (h : Inv db) : Inv (deleteEnvironment perm u eid db).2 := by
  unfold deleteEnvironment
  cases hA : getEnvironmentWithAuthority perm u.id eid
      Authority.DELETE_ENVIRONMENT db with
  | error e => simpa only [hA] using h
  | ok environment =>
      simp only [hA]
      by_cases hD : environment.isDefault = true
      · simpa [hD] using h
      · rw [if_neg hD]
        constructor
        · constructor
          · show ((db.envs.filter _).map Environment.id).Nodup
            exact ((List.filter_sublist db.envs).map Environment.id).nodup h.1.1
          · intro e he
            exact h.1.2 e (List.mem_of_mem_filter he)
        · intro p
          show dcount (db.envs.filter _) p ≤ 1
          exact le_trans (dcount_filter_le _ _ _) (h.2 p)

@[simp] theorem applyUpdateFields_id (dto : UpdateEnvironment)
    (env : Environment) (uid : Nat) (e : Environment) :
    (applyUpdateFields dto env uid e).id = e.id := rfl

@[simp] theorem applyUpdateFields_projectId (dto : UpdateEnvironment)
    (env : Environment) (uid : Nat) (e : Environment) :
    (applyUpdateFields dto env uid e).projectId = e.projectId := rfl

@[simp] theorem applyUpdateFields_isDefault (dto : UpdateEnvironment)
    (env : Environment) (uid : Nat) (e : Environment) :
    (applyUpdateFields dto env uid e).isDefault =
      dto.isDefault.getD env.isDefault := rfl

theorem findEnv_makeAllNonDefault (q : Nat) (db : DB) (eid : Nat) :
    findEnv (makeAllNonDefault q db) eid =
      (findEnv db eid).map (fun e =>
        if e.projectId == q then { e with isDefault := false } else e) := by
  show ((db.envs.map _).find? _) = _
  exact find?_map_eq _ _
    (fun x => by by_cases hq : x.projectId = q <;> simp [hq]) _

theorem Inv_updateEnvironment (perm : Perm) (u : UserRec)
    (dto : UpdateEnvironment) (eid : Nat) (db : DB) (h : Inv db) :
    Inv (updateEnvironment perm u dto eid db).2 := by
  unfold updateEnvironment updateEnvironmentAt
  dsimp only
  split
  · exact h
  · rename_i environment hA
    split
    · exact h
    · rename_i hN
      split
      · exact h
      · rename_i hG
        split
        · exact h
        · rename_i row hrow
          have hfind := (getEnvironmentWithAuthority_ok hA).1
          have hgid : ∀ e : Environment,
              ((fun e => if (e.id == eid) = true then
                applyUpdateFields dto environment u.id e else e) e).id =
                e.id := by
            intro e
            by_cases hc : (e.id == eid) = true <;> simp [hc]
          rcases hd : dto.isDefault with _ | b
          · simp only [hd, optBoolTruthy, Bool.false_eq_true, if_false]
              at hrow ⊢
            rw [hfind] at hrow
            injection hrow with hrow
            subst hrow
            constructor
            · exact idsOk_map hgid h.1
            · intro p
              show dcount (List.map (fun e => if (e.id == eid) = true then
                  applyUpdateFields dto environment u.id e else e)
                  db.envs) p ≤ 1
              have heq := dcount_update_by_id h.1.1 hfind
                (applyUpdateFields dto environment u.id) p
              have hg : contrib p
                  (applyUpdateFields dto environment u.id environment) =
                    contrib p environment := by
                simp [contrib, applyUpdateFields, hd]
              have h2 := h.2 p
              omega
          · cases b with
            | false =>
                simp only [hd, optBoolTruthy, Bool.false_eq_true, if_false]
                  at hrow ⊢
                rw [hfind] at hrow
                injection hrow with hrow
                subst hrow
                constructor
                · exact idsOk_map hgid h.1
                · intro p
                  show dcount (List.map (fun e => if (e.id == eid) = true then
                      applyUpdateFields dto environment u.id e else e)
                      db.envs) p ≤ 1
                  have heq := dcount_update_by_id h.1.1 hfind
                    (applyUpdateFields dto environment u.id) p
                  have hg : contrib p
                      (applyUpdateFields dto environment u.id environment) =
                        0 := by
                    simp [contrib, applyUpdateFields, hd]
                  have h2 := h.2 p
                  omega
            | true =>
                simp only [hd, optBoolTruthy, if_true] at hrow ⊢
                have hids1 : idsOk (makeAllNonDefault environment.projectId db) :=
                  idsOk_makeAllNonDefault _ h.1
                have hrow' : findEnv (makeAllNonDefault environment.projectId db)
                    eid = some { environment with isDefault := false } := by
                  rw [findEnv_makeAllNonDefault, hfind, Option.map_some']
                  simp
                constructor
                · exact idsOk_map hgid hids1
                · intro p
                  show dcount (List.map (fun e => if (e.id == eid) = true then
                      applyUpdateFields dto environment u.id e else e)
                      (makeAllNonDefault environment.projectId db).envs) p ≤ 1
                  have heq := dcount_update_by_id hids1.1 hrow'
                    (applyUpdateFields dto environment u.id) p
                  have hm : dcount (makeAllNonDefault environment.projectId
                      db).envs p =
                      if p = environment.projectId then 0
                      else dcount db.envs p :=
                    dcount_makeAllNonDefault db.envs environment.projectId p
                  have hc0 : contrib p
                      ({ environment with isDefault := false }) = 0 := by
                    simp [contrib]
                  have h2 := h.2 p
                  by_cases hp : p = environment.projectId
                  · subst hp
                    have hcg : contrib environment.projectId
                        (applyUpdateFields dto environment u.id
                          { environment with isDefault := false }) = 1 := by
                      simp [contrib, applyUpdateFields, hd]
                    rw [if_pos rfl] at hm
                    omega
                  · have hcg : contrib p (applyUpdateFields dto environment
                        u.id { environment with isDefault := false }) = 0 := by
                      have hb : (environment.projectId == p) = false := by
                        simp only [beq_eq_false_iff_ne, ne_eq]
                        exact fun hcc => hp hcc.symm
                      simp [contrib, applyUpdateFields, hb]
                    rw [if_neg hp] at hm
                    omega

/-! ### Operation sequences -/

/-- One mutating call of the caller-facing surface. -/
inductive Op where
  | create : UserRec → CreateEnvironment → Nat → Op
  | update : UserRec → UpdateEnvironment → Nat → Op
  | del : UserRec → Nat → Op

/-- The store state after one call (failed calls leave the store as the
service left it at the throw). -/
def applyOp (perm : Perm) (db : DB) : Op → DB
  | Op.create u dto pid => (createEnvironment perm u dto pid db).2
  | Op.update u dto eid => (updateEnvironment perm u dto eid db).2
  | Op.del u eid => (deleteEnvironment perm u eid db).2

/-- The store state after a completed sequence of calls. -/
def applyOps (perm : Perm) (db : DB) (ops : List Op) : DB :=
  ops.foldl (applyOp perm) db

theorem Inv_applyOp (perm : Perm) (db : DB) (op : Op) (h : Inv db) :
    Inv (applyOp perm db op) := by
  cases op with
  | create u dto pid => exact Inv_createEnvironment perm u dto pid db h
  | update u dto eid => exact Inv_updateEnvironment perm u dto eid db h
  | del u eid => exact Inv_deleteEnvironment perm u eid db h

theorem Inv_applyOps (perm : Perm) (ops : List Op) (db : DB) (h : Inv db) :
    Inv (applyOps perm db ops) := by
  induction ops generalizing db with
  | nil => exact h
  | cons op t ih => exact ih _ (Inv_applyOp perm db op h)

/-- The all-permissions caller, for concrete instances. -/
def permTrue : Perm := fun _ _ _ => true

/-- C1 (amended): starting from a well-formed store, after any completed
sequence of createEnvironment, updateEnvironment and deleteEnvironment calls,
every project has AT MOST one environment with `isDefault = true`.  (The
claimed "exactly one" is refuted by `c1_counterexample`: the service accepts a
first environment with `isDefault = false`, leaving a non-empty project with
zero defaults.) -/
theorem c1_at_most_one_default (perm : Perm) (ops : List Op) (db : DB)
    (h : Inv db) (p : Nat) : dcount (applyOps perm db ops).envs p ≤ 1 :=
  (Inv_applyOps perm ops db h).2 p

/-- Witness for C1: the hypotheses of `c1_at_most_one_default` hold at a
concrete well-formed store and call sequence. -/
theorem c1_at_most_one_default_witness :
    Inv (DB.mk [1] [] [] [] 0) ∧
      dcount (applyOps permTrue (DB.mk [1] [] [] [] 0)
        [Op.create (UserRec.mk 5)
          (CreateEnvironment.mk "prod" none true) 1]).envs 1 ≤ 1 := by
  have hInv : Inv (DB.mk [1] [] [] [] 0) := by
    simp [Inv, idsOk, AtMostOne, dcount]
  exact ⟨hInv, c1_at_most_one_default permTrue
    [Op.create (UserRec.mk 5) (CreateEnvironment.mk "prod" none true) 1]
    (DB.mk [1] [] [] [] 0) hInv 1⟩

/-- C1 counterexample: from a well-formed store whose sole project has no
environments, one successful `createEnvironment` call with
`isDefault = false` leaves that project with one environment and zero
default environments, refuting "exactly one environment of that project has
isDefault = true". -/
theorem c1_counterexample :
    (createEnvironment permTrue (UserRec.mk 5)
        (CreateEnvironment.mk "dev" none false) 1
        (DB.mk [1] [] [] [] 0)).1 =
      Except.ok (Environment.mk 0 "dev" none false 1 (some 5)) ∧
    ((applyOps permTrue (DB.mk [1] [] [] [] 0)
        [Op.create (UserRec.mk 5)
          (CreateEnvironment.mk "dev" none false) 1]).envs.filter
        (fun e => e.projectId == 1)).length = 1 ∧
    dcount (applyOps permTrue (DB.mk [1] [] [] [] 0)
        [Op.create (UserRec.mk 5)
          (CreateEnvironment.mk "dev" none false) 1]).envs 1 = 0 :=
  ⟨rfl, rfl, rfl⟩

theorem getEnvironmentWithAuthority_eq_ok {perm : Perm} {userId eid : Nat}
    {a : Authority} {db : DB} {e : Environment}
    (hfind : findEnv db eid = some e)
    (hperm : perm userId e.projectId a = true) :
    getEnvironmentWithAuthority perm userId eid a db = Except.ok e := by
  unfold getEnvironmentWithAuthority
  rw [hfind]
  simp [hperm]

theorem getProjectWithAuthority_eq_ok {perm : Perm} {userId pid : Nat}
    {a : Authority} {db : DB} (hpid : pid ∈ db.projects)
    (hperm : perm userId pid a = true) :
    getProjectWithAuthority perm userId pid a db = Except.ok pid := by
  unfold getProjectWithAuthority
  rw [if_pos hpid, if_pos hperm]

/-- C2 (amended): calling `updateEnvironment` with `isDefault = false`, by an
authorized caller, on an environment that is currently default and is the
sole environment of its project fails and leaves the store untouched; the
failure is `InvalidOperation` unless the payload also carries a name that
trips the (earlier) name-conflict check, in which case it is `Conflict`. -/
theorem c2_last_environment_guard (perm : Perm) (u : UserRec)
    (dto : UpdateEnvironment) (eid : Nat) (db : DB)
    (environment : Environment)
    (hfind : findEnv db eid = some environment)
    (hperm : perm u.id environment.projectId
      Authority.UPDATE_ENVIRONMENT = true)
    (hdef : environment.isDefault = true)
    (hcount : (db.envs.filter
      (fun e => e.projectId == environment.projectId)).length = 1)
    (hdto : dto.isDefault = some false) :
    updateEnvironment perm u dto eid db =
      (Except.error
        (if optStrTruthy dto.name &&
            (environment.name == dto.name.getD "" ||
              environmentExists db (dto.name.getD "")
                environment.projectId) then
          Err.Conflict
        else Err.InvalidOperation), db) := by
  unfold updateEnvironment updateEnvironmentAt
  rw [getEnvironmentWithAuthority_eq_ok hfind hperm]
  dsimp only
  by_cases hN : (optStrTruthy dto.name &&
      (environment.name == dto.name.getD "" ||
        environmentExists db (dto.name.getD "")
          environment.projectId)) = true
  · rw [if_pos hN, if_pos hN]
  · rw [if_neg hN, if_neg hN]
    have hg : (dto.isDefault == some false && environment.isDefault &&
        ((db.envs.filter
          (fun e => e.projectId == environment.projectId)).length == 1)) =
          true := by
      rw [hdto, hdef, hcount]
      simp
    rw [if_pos hg]

/-- Witness for C2: the amended guard at a concrete store holding a single
default environment, with a payload that only sets `isDefault := false`. -/
theorem c2_last_environment_guard_witness :
    findEnv (DB.mk [1] [Environment.mk 0 "prod" none true 1 (some 5)]
        [] [] 1) 0 = some (Environment.mk 0 "prod" none true 1 (some 5)) ∧
    ((DB.mk [1] [Environment.mk 0 "prod" none true 1 (some 5)]
        [] [] 1).envs.filter (fun e => e.projectId == 1)).length = 1 ∧
    updateEnvironment permTrue (UserRec.mk 5)
        (UpdateEnvironment.mk none none (some false)) 0
        (DB.mk [1] [Environment.mk 0 "prod" none true 1 (some 5)] [] [] 1) =
      (Except.error Err.InvalidOperation,
        DB.mk [1] [Environment.mk 0 "prod" none true 1 (some 5)] [] [] 1) :=
  ⟨rfl, rfl,
    (c2_last_environment_guard permTrue (UserRec.mk 5)
      (UpdateEnvironment.mk none none (some false)) 0
      (DB.mk [1] [Environment.mk 0 "prod" none true 1 (some 5)] [] [] 1)
      (Environment.mk 0 "prod" none true 1 (some 5))
      rfl rfl rfl rfl rfl).trans rfl⟩

/-- C2 counterexample: the same sole-default-environment situation, but the
payload also carries the environment's current name; the call then fails with
`Conflict`, not `InvalidOperation`, because the name-conflict check runs
before the last-environment guard. -/
theorem c2_counterexample :
    ((DB.mk [1] [Environment.mk 0 "prod" none true 1 (some 5)]
        [] [] 1).envs.filter (fun e => e.projectId == 1)).length = 1 ∧
    (updateEnvironment permTrue (UserRec.mk 5)
        (UpdateEnvironment.mk (some "prod") none (some false)) 0
        (DB.mk [1] [Environment.mk 0 "prod" none true 1 (some 5)]
          [] [] 1)).1 = Except.error Err.Conflict :=
  ⟨rfl, rfl⟩

/-- C3: for an authorized caller, `updateEnvironment` with a nonempty payload
name equal to the environment's current name, or equal to the name of any
environment of the same project, fails with `Conflict` and leaves the store
untouched. -/
theorem c3_identical_rename_conflict (perm : Perm) (u : UserRec)
    (dto : UpdateEnvironment) (eid : Nat) (db : DB)
    (environment : Environment) (n : String)
    (hfind : findEnv db eid = some environment)
    (hperm : perm u.id environment.projectId
      Authority.UPDATE_ENVIRONMENT = true)
    (hn : dto.name = some n) (hne : n ≠ "")
    (hcase : n = environment.name ∨
      ∃ e ∈ db.envs, e.projectId = environment.projectId ∧ e.name = n) :
    updateEnvironment perm u dto eid db = (Except.error Err.Conflict, db) := by
  unfold updateEnvironment updateEnvironmentAt
  rw [getEnvironmentWithAuthority_eq_ok hfind hperm]
  dsimp only
  have hN : (optStrTruthy dto.name &&
      (environment.name == dto.name.getD "" ||
        environmentExists db (dto.name.getD "")
          environment.projectId)) = true := by
    rw [hn]
    have h1 : optStrTruthy (some n) = true := by simp [optStrTruthy, hne]
    rcases hcase with hc | ⟨e, he, hproj, hname⟩
    · have : (environment.name == (some n).getD "") = true := by
        simp [Option.getD, hc]
      simp only [h1, Bool.true_and, Bool.or_eq_true, beq_iff_eq]
      exact Or.inl hc.symm
    · have hex : environmentExists db ((some n).getD "")
          environment.projectId = true := by
        unfold environmentExists
        rw [List.any_eq_true]
        exact ⟨e, he, by simp [hname, hproj]⟩
      simp only [h1, Bool.true_and, Bool.or_eq_true, beq_iff_eq]
      exact Or.inr hex
  rw [if_pos hN]

/-- Witness for C3: renaming a concrete environment to its own name is
rejected with `Conflict`. -/
theorem c3_identical_rename_conflict_witness :
    findEnv (DB.mk [1] [Environment.mk 0 "prod" none true 1 (some 5),
        Environment.mk 1 "dev" none false 1 (some 5)] [] [] 2) 0 =
      some (Environment.mk 0 "prod" none true 1 (some 5)) ∧
    "prod" ≠ "" ∧
    updateEnvironment permTrue (UserRec.mk 5)
        (UpdateEnvironment.mk (some "prod") none none) 0
        (DB.mk [1] [Environment.mk 0 "prod" none true 1 (some 5),
          Environment.mk 1 "dev" none false 1 (some 5)] [] [] 2) =
      (Except.error Err.Conflict,
        DB.mk [1] [Environment.mk 0 "prod" none true 1 (some 5),
          Environment.mk 1 "dev" none false 1 (some 5)] [] [] 2) :=
  ⟨rfl, by decide,
    c3_identical_rename_conflict permTrue (UserRec.mk 5)
      (UpdateEnvironment.mk (some "prod") none none) 0
      (DB.mk [1] [Environment.mk 0 "prod" none true 1 (some 5),
        Environment.mk 1 "dev" none false 1 (some 5)] [] [] 2)
      (Environment.mk 0 "prod" none true 1 (some 5)) "prod"
      rfl rfl rfl (by decide) (Or.inl rfl)⟩

/-- C4: for an authorized caller, `deleteEnvironment` on an environment whose
`isDefault` flag is set fails with `InvalidOperation` and leaves the store
untouched, regardless of how many environments the project has. -/
theorem c4_delete_default_guard (perm : Perm) (u : UserRec) (eid : Nat)
    (db : DB) (environment : Environment)
    (hfind : findEnv db eid = some environment)
    (hperm : perm u.id environment.projectId
      Authority.DELETE_ENVIRONMENT = true)
    (hdef : environment.isDefault = true) :
    deleteEnvironment perm u eid db =
      (Except.error Err.InvalidOperation, db) := by
  unfold deleteEnvironment
  rw [getEnvironmentWithAuthority_eq_ok hfind hperm]
  dsimp only
  rw [if_pos hdef]

/-- Witness for C4: deleting a concrete default environment (here of a
two-environment project) is rejected. -/
theorem c4_delete_default_guard_witness :
    findEnv (DB.mk [1] [Environment.mk 0 "prod" none true 1 (some 5),
        Environment.mk 1 "dev" none false 1 (some 5)] [] [] 2) 0 =
      some (Environment.mk 0 "prod" none true 1 (some 5)) ∧
    deleteEnvironment permTrue (UserRec.mk 5) 0
        (DB.mk [1] [Environment.mk 0 "prod" none true 1 (some 5),
          Environment.mk 1 "dev" none false 1 (some 5)] [] [] 2) =
      (Except.error Err.InvalidOperation,
        DB.mk [1] [Environment.mk 0 "prod" none true 1 (some 5),
          Environment.mk 1 "dev" none false 1 (some 5)] [] [] 2) :=
  ⟨rfl,
    c4_delete_default_guard permTrue (UserRec.mk 5) 0
      (DB.mk [1] [Environment.mk 0 "prod" none true 1 (some 5),
        Environment.mk 1 "dev" none false 1 (some 5)] [] [] 2)
      (Environment.mk 0 "prod" none true 1 (some 5)) rfl rfl rfl⟩

/-- C5: every successful `createEnvironment`, `updateEnvironment` and
`deleteEnvironment` call appends exactly one event of the matching type whose
metadata carries the affected environment's id and name and its project's id;
every failed call leaves the event log untouched. -/
theorem c5_event_emission (perm : Perm) (db : DB) (u : UserRec)
    (cdto : CreateEnvironment) (pid : Nat) (udto : UpdateEnvironment)
    (ueid deid : Nat) :
    ((createEnvironment perm u cdto pid db).2.events =
      match (createEnvironment perm u cdto pid db).1 with
      | Except.ok env => db.events ++
          [EventRec.mk EventType.ENVIRONMENT_ADDED env.id env.name pid]
      | Except.error _ => db.events) ∧
    ((updateEnvironment perm u udto ueid db).2.events =
      match (updateEnvironment perm u udto ueid db).1 with
      | Except.ok env => db.events ++
          [EventRec.mk EventType.ENVIRONMENT_UPDATED env.id env.name
            env.projectId]
      | Except.error _ => db.events) ∧
    ((deleteEnvironment perm u deid db).2.events =
      match (deleteEnvironment perm u deid db).1, findEnv db deid with
      | Except.ok _, some e0 => db.events ++
          [EventRec.mk EventType.ENVIRONMENT_DELETED e0.id e0.name
            e0.projectId]
      | _, _ => db.events) := by
  refine ⟨?_, ?_, ?_⟩
  · unfold createEnvironment
    dsimp only
    split
    · rfl
    · split
      · rfl
      · split <;> rfl
  · unfold updateEnvironment updateEnvironmentAt
    dsimp only
    split
    · rfl
    · split
      · rfl
      · split
        · rfl
        · split
          · rfl
          · by_cases hb : optBoolTruthy udto.isDefault = true
            · rw [if_pos hb]
              rfl
            · rw [if_neg hb]
              rfl
  · unfold deleteEnvironment
    dsimp only
    split
    · rfl
    · rename_i environment hA
      rw [(getEnvironmentWithAuthority_ok hA).1]
      split <;> rfl

/-- C8: for an authorized caller, `createEnvironment` fails with `Conflict`
when some environment of the target project already carries the requested
name, and the store is returned untouched. -/
theorem c8_create_name_conflict (perm : Perm) (u : UserRec)
    (dto : CreateEnvironment) (pid : Nat) (db : DB)
    (hpid : pid ∈ db.projects)
    (hperm : perm u.id pid Authority.CREATE_ENVIRONMENT = true)
    (hex : ∃ e ∈ db.envs, e.name = dto.name ∧ e.projectId = pid) :
    createEnvironment perm u dto pid db = (Except.error Err.Conflict, db) := by
  unfold createEnvironment
  rw [getProjectWithAuthority_eq_ok hpid hperm]
  dsimp only
  have hex2 : environmentExists db dto.name pid = true := by
    unfold environmentExists
    rw [List.any_eq_true]
    rcases hex with ⟨e, he, hname, hproj⟩
    exact ⟨e, he, by simp [hname, hproj]⟩
  rw [if_pos hex2]

/-- Witness for C8: creating a second "prod" in the same concrete project is
rejected with `Conflict` and the store is unchanged. -/
theorem c8_create_name_conflict_witness :
    1 ∈ (DB.mk [1] [Environment.mk 0 "prod" none true 1 (some 5)]
        [] [] 1).projects ∧
    createEnvironment permTrue (UserRec.mk 5)
        (CreateEnvironment.mk "prod" none false) 1
        (DB.mk [1] [Environment.mk 0 "prod" none true 1 (some 5)] [] [] 1) =
      (Except.error Err.Conflict,
        DB.mk [1] [Environment.mk 0 "prod" none true 1 (some 5)] [] [] 1) :=
  ⟨by decide,
    c8_create_name_conflict permTrue (UserRec.mk 5)
      (CreateEnvironment.mk "prod" none false) 1
      (DB.mk [1] [Environment.mk 0 "prod" none true 1 (some 5)] [] [] 1)
      (by decide) rfl
      ⟨Environment.mk 0 "prod" none true 1 (some 5), by decide⟩⟩

theorem updateEnvironmentAt_frame (perm : Perm) (u : UserRec)
    (dto : UpdateEnvironment) (eid : Nat) (dbC dbW : DB) :
    (updateEnvironmentAt perm u dto eid dbC dbW).2 = dbW ∨
      ∃ env, (updateEnvironmentAt perm u dto eid dbC dbW).1 =
        Except.ok env := by
  unfold updateEnvironmentAt
  dsimp only
  split
  · exact Or.inl rfl
  · split
    · exact Or.inl rfl
    · split
      · exact Or.inl rfl
      · split
        · exact Or.inl rfl
        · exact Or.inr ⟨_, rfl⟩

/-- C10: `updateEnvironment` is atomic on error: whenever the call returns
any error — NotFound, Forbidden, Conflict, the last-environment
InvalidOperation, or a persistence failure — no write is issued and the
store is exactly what it was before the call. -/
theorem c10_update_atomic_on_error (perm : Perm) (u : UserRec)
    (dto : UpdateEnvironment) (eid : Nat) (db : DB) (e : Err)
    (herr : (updateEnvironment perm u dto eid db).1 = Except.error e) :
    (updateEnvironment perm u dto eid db).2 = db := by
  unfold updateEnvironment at herr ⊢
  rcases updateEnvironmentAt_frame perm u dto eid db db with hf | ⟨env, hok⟩
  · exact hf
  · rw [hok] at herr
    exact absurd herr (by simp)

/-- Witness for C10: a concrete failing call (unknown environment id, hence
`NotFound`) leaves the concrete store untouched. -/
theorem c10_update_atomic_on_error_witness :
    (updateEnvironment permTrue (UserRec.mk 5)
        (UpdateEnvironment.mk none none none) 0
        (DB.mk [] [] [] [] 0)).1 = Except.error Err.NotFound ∧
    (updateEnvironment permTrue (UserRec.mk 5)
        (UpdateEnvironment.mk none none none) 0
        (DB.mk [] [] [] [] 0)).2 = DB.mk [] [] [] [] 0 :=
  ⟨rfl,
    c10_update_atomic_on_error permTrue (UserRec.mk 5)
      (UpdateEnvironment.mk none none none) 0
      (DB.mk [] [] [] [] 0) Err.NotFound rfl⟩

theorem findEnv_map_update (db : DB) (eid : Nat)
    (g : Environment → Environment) (hg : ∀ e, (g e).id = e.id) :
    findEnv { db with envs := db.envs.map (fun e =>
        if (e.id == eid) = true then g e else e) } eid =
      (findEnv db eid).map (fun e =>
        if (e.id == eid) = true then g e else e) := by
  show (db.envs.map _).find? _ = _
  apply find?_map_eq
  intro x
  by_cases hc : (x.id == eid) = true <;> simp [hc, hg]

/-- C6: on any successful `updateEnvironment` call, every field absent from
the payload keeps its previous stored value — `isDefault` stays exactly what
it was when the payload omits it, and likewise `name` and `description` —
and the returned entity is the stored row after the call. -/
theorem c6_partial_update_frame (perm : Perm) (u : UserRec)
    (dto : UpdateEnvironment) (eid : Nat) (db db' : DB)
    (environment updated : Environment)
    (hfind : findEnv db eid = some environment)
    (hok : updateEnvironment perm u dto eid db = (Except.ok updated, db')) :
    (dto.isDefault = none → updated.isDefault = environment.isDefault) ∧
    (dto.name = none → updated.name = environment.name) ∧
    (dto.description = none →
      updated.description = environment.description) ∧
    findEnv db' eid = some updated := by
  unfold updateEnvironment updateEnvironmentAt at hok
  dsimp only at hok
  split at hok
  · simp at hok
  · rename_i environment0 hA
    split at hok
    · simp at hok
    · split at hok
      · simp at hok
      · split at hok
        · simp at hok
        · rename_i row hrow
          have hfind0 := (getEnvironmentWithAuthority_ok hA).1
          rw [hfind] at hfind0
          injection hfind0 with henv
          subst henv
          rw [Prod.mk.injEq] at hok
          obtain ⟨h1, h2⟩ := hok
          injection h1 with hu
          subst hu
          subst h2
          have hrow2 : List.find? (fun e => e.id == eid)
              ((if optBoolTruthy dto.isDefault = true then
                makeAllNonDefault environment.projectId db else
                db).envs) = some row := hrow
          have hrowid := List.find?_some hrow2
          have hrowfields : row.name = environment.name ∧
              row.description = environment.description := by
            by_cases hb : optBoolTruthy dto.isDefault = true
            · rw [if_pos hb] at hrow
              rw [findEnv_makeAllNonDefault, hfind, Option.map_some'] at hrow
              simp only [beq_self_eq_true, if_true] at hrow
              injection hrow with hr
              rw [← hr]
              exact ⟨rfl, rfl⟩
            · rw [if_neg hb] at hrow
              rw [hfind] at hrow
              injection hrow with hr
              rw [← hr]
              exact ⟨rfl, rfl⟩
          refine ⟨?_, ?_, ?_, ?_⟩
          · intro hdN
            simp [applyUpdateFields, hdN]
          · intro hnN
            simp [applyUpdateFields, hnN, hrowfields.1]
          · intro hsN
            simp [applyUpdateFields, hsN, hrowfields.2]
          · have hd2 := findEnv_map_update
              (if optBoolTruthy dto.isDefault = true then
                makeAllNonDefault environment.projectId db else db) eid
              (applyUpdateFields dto environment u.id) (fun e => rfl)
            exact hd2.trans (by rw [hrow, Option.map_some', if_pos hrowid])

/-- Witness for C6: a successful update with an all-absent payload on a
concrete store keeps name, description and the default flag unchanged. -/
theorem c6_partial_update_frame_witness :
    findEnv (DB.mk [1] [Environment.mk 0 "prod" (some "d") true 1 (some 9)]
        [] [] 1) 0 =
      some (Environment.mk 0 "prod" (some "d") true 1 (some 9)) ∧
    updateEnvironment permTrue (UserRec.mk 5)
        (UpdateEnvironment.mk none none none) 0
        (DB.mk [1] [Environment.mk 0 "prod" (some "d") true 1 (some 9)]
          [] [] 1) =
      (Except.ok (Environment.mk 0 "prod" (some "d") true 1 (some 5)),
        DB.mk [1] [Environment.mk 0 "prod" (some "d") true 1 (some 5)] []
          [EventRec.mk EventType.ENVIRONMENT_UPDATED 0 "prod" 1] 1) ∧
    (Environment.mk 0 "prod" (some "d") true 1 (some 5)).isDefault =
      (Environment.mk 0 "prod" (some "d") true 1 (some 9)).isDefault ∧
    (Environment.mk 0 "prod" (some "d") true 1 (some 5)).name =
      (Environment.mk 0 "prod" (some "d") true 1 (some 9)).name ∧
    (Environment.mk 0 "prod" (some "d") true 1 (some 5)).description =
      (Environment.mk 0 "prod" (some "d") true 1 (some 9)).description := by
  have h := c6_partial_update_frame permTrue (UserRec.mk 5)
    (UpdateEnvironment.mk none none none) 0
    (DB.mk [1] [Environment.mk 0 "prod" (some "d") true 1 (some 9)] [] [] 1)
    (DB.mk [1] [Environment.mk 0 "prod" (some "d") true 1 (some 5)] []
      [EventRec.mk EventType.ENVIRONMENT_UPDATED 0 "prod" 1] 1)
    (Environment.mk 0 "prod" (some "d") true 1 (some 9))
    (Environment.mk 0 "prod" (some "d") true 1 (some 5))
    rfl rfl
  exact ⟨rfl, rfl, h.1 rfl, h.2.1 rfl, h.2.2.1 rfl⟩

theorem charListLe_total : ∀ l₁ l₂ : List Char,
    (charListLe l₁ l₂ || charListLe l₂ l₁) = true
  | [], l₂ => by simp [charListLe]
  | a :: as, [] => by simp [charListLe]
  | a :: as, b :: bs => by
      unfold charListLe
      by_cases h1 : a.toNat < b.toNat
      · simp [h1]
      · by_cases h2 : b.toNat < a.toNat
        · simp [h1, h2]
        · simpa [h1, h2] using charListLe_total as bs

theorem charListLe_trans : ∀ l₁ l₂ l₃ : List Char,
    charListLe l₁ l₂ = true → charListLe l₂ l₃ = true →
      charListLe l₁ l₃ = true
  | [], _, _, _, _ => by simp [charListLe]
  | a :: as, [], _, h1, _ => by simp [charListLe] at h1
  | a :: as, b :: bs, [], _, h2 => by simp [charListLe] at h2
  | a :: as, b :: bs, c :: cs, h1, h2 => by
      unfold charListLe at h1 h2 ⊢
      by_cases hab : a.toNat < b.toNat
      · by_cases hbc : b.toNat < c.toNat
        · have : a.toNat < c.toNat := Nat.lt_trans hab hbc
          simp [this]
        · by_cases hcb : c.toNat < b.toNat
          · simp [hbc, hcb] at h2
          · have : a.toNat < c.toNat := by omega
            simp [this]
      · by_cases hba : b.toNat < a.toNat
        · simp [hab, hba] at h1
        · have hab2 : a.toNat = b.toNat := by omega
          by_cases hbc : b.toNat < c.toNat
          · have : a.toNat < c.toNat := by omega
            simp [this]
          · by_cases hcb : c.toNat < b.toNat
            · simp [hbc, hcb] at h2
            · have hnac : ¬a.toNat < c.toNat := by omega
              have hnca : ¬c.toNat < a.toNat := by omega
              simp only [hab, hba, if_false, if_neg hab, if_neg hba] at h1
              simp only [if_neg hbc, if_neg hcb] at h2
              simpa [hnac, hnca] using charListLe_trans as bs cs h1 h2

theorem mem_insertLe {α : Type} (le : α → α → Bool) (a x : α) :
    ∀ l : List α, x ∈ insertLe le a l ↔ x = a ∨ x ∈ l
  | [] => by simp [insertLe]
  | b :: t => by
      unfold insertLe
      by_cases h : le a b = true
      · rw [if_pos h]
        simp
      · rw [if_neg h]
        simp only [List.mem_cons, mem_insertLe le a x t]
        tauto

theorem pairwise_insertLe {α : Type} (le : α → α → Bool)
    (htrans : ∀ a b c, le a b = true → le b c = true → le a c = true)
    (htot : ∀ a b, (le a b || le b a) = true) (a : α) :
    ∀ l : List α, l.Pairwise (fun x y => le x y = true) →
      (insertLe le a l).Pairwise (fun x y => le x y = true)
  | [], _ => by simp [insertLe]
  | b :: t, h => by
      rw [List.pairwise_cons] at h
      unfold insertLe
      by_cases hab : le a b = true
      · rw [if_pos hab]
        refine List.Pairwise.cons ?_ (List.Pairwise.cons h.1 h.2)
        intro y hy
        rcases List.mem_cons.mp hy with rfl | hyt
        · exact hab
        · exact htrans a b y hab (h.1 y hyt)
      · rw [if_neg hab]
        have hba : le b a = true := by
          have h2 := htot a b
          rw [Bool.or_eq_true] at h2
          rcases h2 with h2 | h2
          · exact absurd h2 hab
          · exact h2
        refine List.Pairwise.cons ?_
          (pairwise_insertLe le htrans htot a t h.2)
        intro y hy
        rcases (mem_insertLe le a y t).mp hy with rfl | hyt
        · exact hba
        · exact h.1 y hyt

theorem mem_sortLe {α : Type} (le : α → α → Bool) (x : α) :
    ∀ l : List α, x ∈ sortLe le l ↔ x ∈ l
  | [] => by simp [sortLe]
  | a :: t => by
      unfold sortLe
      rw [mem_insertLe, mem_sortLe le x t]
      simp

theorem pairwise_sortLe {α : Type} (le : α → α → Bool)
    (htrans : ∀ a b c, le a b = true → le b c = true → le a c = true)
    (htot : ∀ a b, (le a b || le b a) = true) :
    ∀ l : List α, (sortLe le l).Pairwise (fun x y => le x y = true)
  | [] => by simp [sortLe]
  | a :: t =>
      pairwise_insertLe le htrans htot a _ (pairwise_sortLe le htrans htot t)

theorem envLe_total (f : SortField) (o : SortOrder) (a b : Environment) :
    (envLe f o a b || envLe f o b a) = true := by
  cases o <;> cases f <;>
    simp only [envLe, fieldLe, strLe, Bool.or_eq_true, decide_eq_true_eq]
  · simpa using charListLe_total a.name.data b.name.data
  · exact Nat.le_total a.id b.id
  · cases a.isDefault <;> cases b.isDefault <;> simp
  · simpa using charListLe_total b.name.data a.name.data
  · exact Nat.le_total b.id a.id
  · cases a.isDefault <;> cases b.isDefault <;> simp

theorem envLe_trans (f : SortField) (o : SortOrder) (a b c : Environment) :
    envLe f o a b = true → envLe f o b c = true → envLe f o a c = true := by
  cases o <;> cases f <;>
    simp only [envLe, fieldLe, strLe, decide_eq_true_eq]
  · exact charListLe_trans a.name.data b.name.data c.name.data
  · exact Nat.le_trans
  · cases a.isDefault <;> cases b.isDefault <;> cases c.isDefault <;> simp
  · exact fun h1 h2 => charListLe_trans c.name.data b.name.data a.name.data h2 h1
  · exact fun h1 h2 => Nat.le_trans h2 h1
  · cases a.isDefault <;> cases b.isDefault <;> cases c.isDefault <;> simp

/-- C7: for an authorized caller on an existing project,
`getEnvironmentsOfProject` succeeds and returns exactly the window
`take limit (drop (page * limit) ·)` of the project's environments whose
name contains the search string (case-sensitively), sorted by the named
field in the named order; hence at most `limit` entries, all from the given
project and matching the search, each enriched with its last-updating
user. -/
theorem c7_list_environments (perm : Perm) (u : UserRec)
    (pid page limit : Nat) (f : SortField) (o : SortOrder)
    (search : String) (db : DB) (hpid : pid ∈ db.projects)
    (hperm : perm u.id pid Authority.READ_ENVIRONMENT = true) :
    ∃ rs, getEnvironmentsOfProject perm u pid page limit f o search db =
        Except.ok rs ∧
      rs.map Prod.fst =
        ((sortLe (envLe f o) (db.envs.filter (fun e =>
            e.projectId == pid && strContains e.name search))).drop
          (page * limit)).take limit ∧
      rs.length ≤ limit ∧
      (∀ x ∈ rs, x.1.projectId = pid ∧
        strContains x.1.name search = true ∧
        x.2 = lookupUser db x.1.lastUpdatedById) ∧
      (rs.map Prod.fst).Pairwise (fun a b => envLe f o a b = true) := by
  refine ⟨(((sortLe (envLe f o) (db.envs.filter (fun e =>
      e.projectId == pid && strContains e.name search))).drop
      (page * limit)).take limit).map
      (fun e => (e, lookupUser db e.lastUpdatedById)), ?_, ?_, ?_, ?_, ?_⟩
  · unfold getEnvironmentsOfProject
    rw [getProjectWithAuthority_eq_ok hpid hperm]
  · rw [List.map_map]
    exact List.map_id' _
  · rw [List.length_map, List.length_take]
    exact Nat.min_le_left _ _
  · intro x hx
    rcases List.mem_map.mp hx with ⟨e, he, rfl⟩
    have heS : e ∈ sortLe (envLe f o) (db.envs.filter (fun e =>
        e.projectId == pid && strContains e.name search)) :=
      List.mem_of_mem_drop (List.mem_of_mem_take he)
    have heL := (mem_sortLe (envLe f o) e _).mp heS
    have hpred := (List.mem_filter.mp heL).2
    rw [Bool.and_eq_true] at hpred
    exact ⟨by simpa using hpred.1, hpred.2, rfl⟩
  · rw [List.pairwise_map, List.pairwise_map]
    have hsorted := pairwise_sortLe (envLe f o)
      (fun a b c => envLe_trans f o a b c)
      (fun a b => envLe_total f o a b)
      (db.envs.filter (fun e =>
        e.projectId == pid && strContains e.name search))
    exact hsorted.sublist
      ((List.take_sublist _ _).trans (List.drop_sublist _ _))

/-- Witness for C7: the list call on a concrete two-environment project,
sorted ascending by name, returns both rows (dev before prod), each carrying
its last-updating user. -/
theorem c7_list_environments_witness :
    1 ∈ (DB.mk [1] [Environment.mk 0 "prod" none true 1 (some 5),
        Environment.mk 1 "dev" none false 1 (some 5)]
        [UserRec.mk 5] [] 2).projects ∧
    getEnvironmentsOfProject permTrue (UserRec.mk 5) 1 0 10
        SortField.name SortOrder.asc ""
        (DB.mk [1] [Environment.mk 0 "prod" none true 1 (some 5),
          Environment.mk 1 "dev" none false 1 (some 5)]
          [UserRec.mk 5] [] 2) =
      Except.ok [(Environment.mk 1 "dev" none false 1 (some 5),
          some (UserRec.mk 5)),
        (Environment.mk 0 "prod" none true 1 (some 5),
          some (UserRec.mk 5))] ∧
    ([(Environment.mk 1 "dev" none false 1 (some 5), some (UserRec.mk 5)),
      (Environment.mk 0 "prod" none true 1 (some 5),
        some (UserRec.mk 5))] :
      List (Environment × Option UserRec)).length ≤ 10 := by
  refine ⟨by decide, rfl, ?_⟩
  obtain ⟨rs, h1, _, hlen, _, _⟩ := c7_list_environments permTrue
    (UserRec.mk 5) 1 0 10 SortField.name SortOrder.asc ""
    (DB.mk [1] [Environment.mk 0 "prod" none true 1 (some 5),
      Environment.mk 1 "dev" none false 1 (some 5)]
      [UserRec.mk 5] [] 2) (by decide) rfl
  have h2 : Except.ok rs = Except.ok
      [(Environment.mk 1 "dev" none false 1 (some 5), some (UserRec.mk 5)),
       (Environment.mk 0 "prod" none true 1 (some 5),
         some (UserRec.mk 5))] := h1.symm.trans rfl
  injection h2 with h3
  rw [← h3]
  exact hlen

/-- C9: the environment count used by the last-environment guard of
`updateEnvironment` is read by a query issued before `$transaction(ops)`, not
inside it.  Modelling the race the spec forbids — the checks run against one
committed state and the transaction against the state left by a concurrent
`deleteEnvironment` of the project's other (non-default) environment — the
stale count (2) lets the guard pass, the update commits, and the project is
left with a single environment and zero defaults, which the in-transaction
read required by the claim would have prevented. -/
theorem c9_count_read_outside_transaction :
    (deleteEnvironment permTrue (UserRec.mk 6) 1
        (DB.mk [1] [Environment.mk 0 "prod" none true 1 (some 5),
          Environment.mk 1 "dev" none false 1 (some 5)] [] [] 2)).2.envs =
      (DB.mk [1] [Environment.mk 0 "prod" none true 1 (some 5)]
        [] [] 2).envs ∧
    (updateEnvironment permTrue (UserRec.mk 5)
        (UpdateEnvironment.mk none none (some false)) 0
        (DB.mk [1] [Environment.mk 0 "prod" none true 1 (some 5)]
          [] [] 2)).1 = Except.error Err.InvalidOperation ∧
    (updateEnvironmentAt permTrue (UserRec.mk 5)
        (UpdateEnvironment.mk none none (some false)) 0
        (DB.mk [1] [Environment.mk 0 "prod" none true 1 (some 5),
          Environment.mk 1 "dev" none false 1 (some 5)] [] [] 2)
        (DB.mk [1] [Environment.mk 0 "prod" none true 1 (some 5)]
          [] [] 2)).1 =
      Except.ok (Environment.mk 0 "prod" none false 1 (some 5)) ∧
    dcount (updateEnvironmentAt permTrue (UserRec.mk 5)
        (UpdateEnvironment.mk none none (some false)) 0
        (DB.mk [1] [Environment.mk 0 "prod" none true 1 (some 5),
          Environment.mk 1 "dev" none false 1 (some 5)] [] [] 2)
        (DB.mk [1] [Environment.mk 0 "prod" none true 1 (some 5)]
          [] [] 2)).2.envs 1 = 0 ∧
    ((updateEnvironmentAt permTrue (UserRec.mk 5)
        (UpdateEnvironment.mk none none (some false)) 0
        (DB.mk [1] [Environment.mk 0 "prod" none true 1 (some 5),
          Environment.mk 1 "dev" none false 1 (some 5)] [] [] 2)
        (DB.mk [1] [Environment.mk 0 "prod" none true 1 (some 5)]
          [] [] 2)).2.envs.filter (fun e => e.projectId == 1)).length = 1 :=
  ⟨rfl, rfl, rfl, rfl, rfl⟩

end Keyshade
